import Mathlib

/-!
Verification of the `lob_engine` limit order book and matching engine.

This file gives a shallow embedding of the C++ sources
(`src/matching_engine.cpp`, `include/order.hpp`, `include/order_book.hpp`,
`include/matching_engine.hpp`) into Lean 4, and settles the specification
claims against it.

Modelling conventions:
* C++ pointers (`Order*`, `PriceLevel*`) become indices (`Option Nat`) into
  arenas (`List Order`, `List PriceLevel`), mirroring the pools the C++
  allocates from.  Pool memory is never freed while the book lives, so a
  "dangling" pointer to a removed tree node still reads that node's slot,
  exactly as in the C++.
* `uint32_t` arithmetic on level `total_volume` is modelled with explicit
  wrap-around (`add32` / `sub32`, i.e. mod 2^32), since legal order sizes
  can overflow it.  Counters that move by one per bounded event
  (`order_count`, `order_count_`, `match_count_`, `total_orders_`, pool
  cursor) are plain `Nat`.
* The fixed-capacity loops of the C++ (BST walks, FIFO walks) are embedded
  with a fuel argument that strictly exceeds the arena size, which bounds
  every acyclic walk.
-/

namespace LOB

/-- 2^32, the modulus of `uint32_t` arithmetic. -/
def U32 : Nat := 4294967296

/-- `uint32_t` addition: wraps mod 2^32. -/
def add32 (a b : Nat) : Nat := (a + b) % U32

/-- `uint32_t` subtraction: wraps mod 2^32. -/
def sub32 (a b : Nat) : Nat := (a + (U32 - b % U32)) % U32

/-- `Side` from `order.hpp`. -/
inductive Side : Type where
  | BUY : Side
  | SELL : Side
deriving DecidableEq, Repr

/-- `OrderType` from `order.hpp`. -/
inductive OrderType : Type where
  | LIMIT : OrderType
  | MARKET : OrderType
  | CANCEL : OrderType
deriving DecidableEq, Repr

/-- `struct Order` from `order.hpp`.  The intrusive pointers `next`, `prev`
(`Order*`) and `parent_level` (`PriceLevel*`) become indices into the order
arena and the level arena respectively. -/
structure Order : Type where
  order_id : Nat
  timestamp : Nat
  price : Nat
  quantity : Nat
  remaining_quantity : Nat
  side : Side
  type : OrderType
  next : Option Nat
  prev : Option Nat
  parent_level : Option Nat
deriving DecidableEq, Repr

/-- The default-constructed `Order()` (all fields zero / null). -/
def defaultOrder : Order :=
  { order_id := 0, timestamp := 0, price := 0, quantity := 0,
    remaining_quantity := 0, side := Side.BUY, type := OrderType.LIMIT,
    next := none, prev := none, parent_level := none }

instance : Inhabited Order := ⟨defaultOrder⟩

/-- `struct ExecutionReport` from `order.hpp`. -/
structure ExecutionReport : Type where
  order_id : Nat
  match_id : Nat
  timestamp : Nat
  price : Nat
  executed_quantity : Nat
  side : Side
  is_full_fill : Bool
deriving DecidableEq, Repr

instance : Inhabited ExecutionReport :=
  ⟨{ order_id := 0, match_id := 0, timestamp := 0, price := 0,
     executed_quantity := 0, side := Side.BUY, is_full_fill := false }⟩

/-- `class PriceLevel` from `order_book.hpp`: FIFO endpoints plus the
unbalanced-BST linkage (`parent`, `left`, `right`), all as arena indices. -/
structure PriceLevel : Type where
  price : Nat
  total_volume : Nat
  order_count : Nat
  head_order : Option Nat
  tail_order : Option Nat
  parent : Option Nat
  left : Option Nat
  right : Option Nat
deriving DecidableEq, Repr

/-- `SPSCQueue<T, Capacity>` from `order.hpp`: a bounded single-producer
single-consumer ring.  `head`/`tail` are the atomic cursors; `buffer` is the
`std::array<T, Capacity>`. -/
structure SPSCQueue (T : Type) (Capacity : Nat) : Type where
  head : Nat
  tail : Nat
  buffer : List T
deriving DecidableEq, Repr

namespace SPSCQueue

/-- `SPSCQueue::push`: fails (returns `false`) when advancing `head` would
meet `tail`; otherwise stores at `head` and advances it, masked by
`Capacity - 1`. -/
def push {T : Type} {C : Nat} (q : SPSCQueue T C) (item : T) :
    Bool × SPSCQueue T C :=
  let next_head := (q.head + 1) &&& (C - 1)
  if next_head = q.tail then (false, q)
  else (true, { q with buffer := q.buffer.set q.head item, head := next_head })

/-- `SPSCQueue::pop`: fails (returns `none`) when `tail` has caught up with
`head`; otherwise reads the slot at `tail` and advances it. -/
def pop {T : Type} {C : Nat} (q : SPSCQueue T C) :
    Option T × SPSCQueue T C :=
  if q.tail = q.head then (none, q)
  else (q.buffer.get? q.tail, { q with tail := (q.tail + 1) &&& (C - 1) })

/-- `SPSCQueue::size`. -/
def size {T : Type} {C : Nat} (q : SPSCQueue T C) : Nat :=
  if q.tail ≤ q.head then q.head - q.tail else C - q.tail + q.head

/-- Well-formedness maintained by the C++ object: both cursors are in range
(they are always masked by `Capacity - 1`) and the buffer is the fixed
`std::array` of length `Capacity`. -/
def wf {T : Type} {C : Nat} (q : SPSCQueue T C) : Prop :=
  q.head < C ∧ q.tail < C ∧ q.buffer.length = C

/-- The abstract contents of the ring, oldest first: the `size` entries
starting at `tail`. -/
def toList {T : Type} [Inhabited T] {C : Nat} (q : SPSCQueue T C) : List T :=
  (List.range q.size).map (fun i => q.buffer.getD ((q.tail + i) % C) default)

/-- The freshly constructed queue (cursors zero, default-initialised array). -/
def empty (T : Type) [Inhabited T] (C : Nat) : SPSCQueue T C :=
  { head := 0, tail := 0, buffer := List.replicate C default }

end SPSCQueue

/-- Generic association-list lookup, modelling `std::unordered_map::find`. -/
def lookupA {α β : Type} [BEq α] (m : List (α × β)) (k : α) : Option β :=
  (m.find? (fun p => p.1 == k)).map Prod.snd

/-- Association-list overwrite, modelling `map[k] = v`. -/
def setAssoc {α β : Type} [BEq α] (m : List (α × β)) (k : α) (v : β) :
    List (α × β) :=
  (k, v) :: m.filter (fun p => !(p.1 == k))

/-- Association-list erase, modelling `map.erase(k)`. -/
def eraseAssoc {α β : Type} [BEq α] (m : List (α × β)) (k : α) :
    List (α × β) :=
  m.filter (fun p => !(p.1 == k))

/-- `class OrderBook` from `order_book.hpp`.  `levels` is the allocated
prefix of the `price_level_pool_` arena (its length plays the role of
`pool_index_`); tree roots, best pointers and the id map store arena
indices. -/
structure OrderBook : Type where
  levels : List PriceLevel
  bid_tree_root : Option Nat
  ask_tree_root : Option Nat
  best_bid : Option Nat
  best_ask : Option Nat
  orders : List (Nat × Nat)
  order_count : Nat
  match_count : Nat
deriving DecidableEq, Repr

/-- The freshly constructed `OrderBook()`. -/
def emptyBook : OrderBook :=
  { levels := [], bid_tree_root := none, ask_tree_root := none,
    best_bid := none, best_ask := none, orders := [],
    order_count := 0, match_count := 0 }

/-- A book together with the order arena its `Order*` pointers refer to
(the engine's `order_pool_` as seen by this book). -/
structure BookSt : Type where
  slots : List Order
  book : OrderBook
deriving DecidableEq, Repr

namespace BookSt

/-- Dereference an `Order*`. -/
def getSlot (st : BookSt) (i : Nat) : Option Order := st.slots.get? i

/-- Dereference a `PriceLevel*`. -/
def getLevel (st : BookSt) (i : Nat) : Option PriceLevel :=
  st.book.levels.get? i

/-- Mutate the order slot at `i` (no-op when out of range, which never
happens on the C++-reachable paths exercised here). -/
def updSlot (st : BookSt) (i : Nat) (f : Order → Order) : BookSt :=
  match st.slots.get? i with
  | none => st
  | some o => { st with slots := st.slots.set i (f o) }

/-- Mutate the level slot at `i`. -/
def updLevel (st : BookSt) (i : Nat) (f : PriceLevel → PriceLevel) : BookSt :=
  match st.book.levels.get? i with
  | none => st
  | some lv =>
      { st with book := { st.book with levels := st.book.levels.set i (f lv) } }

/-- Replace the book component. -/
def setBook (st : BookSt) (b : OrderBook) : BookSt := { st with book := b }

/-- `PriceLevel::add_order`: append the order at the tail of the level's
FIFO, set its level back-pointer, bump `total_volume` and `order_count`. -/
def level_add_order (st : BookSt) (li oi : Nat) : BookSt :=
  match st.getSlot oi, st.getLevel li with
  | some o, some lv =>
      let st := st.updSlot oi
        (fun s => { s with parent_level := some li, next := none,
                           prev := lv.tail_order })
      let st :=
        match lv.tail_order with
        | some t => st.updSlot t (fun s => { s with next := some oi })
        | none => st.updLevel li (fun l => { l with head_order := some oi })
      st.updLevel li (fun l =>
        { l with tail_order := some oi,
                 total_volume := add32 l.total_volume o.remaining_quantity,
                 order_count := l.order_count + 1 })
  | _, _ => st

/-- `PriceLevel::remove_order`: unlink the order from the FIFO of level `li`
via its own neighbour pointers, adjust `total_volume` and `order_count`,
and null the order's linkage. -/
def level_remove_order (st : BookSt) (li oi : Nat) : BookSt :=
  match st.getSlot oi, st.getLevel li with
  | some o, some _ =>
      let st :=
        match o.prev with
        | some pv => st.updSlot pv (fun s => { s with next := o.next })
        | none => st.updLevel li (fun l => { l with head_order := o.next })
      let st :=
        match o.next with
        | some nx => st.updSlot nx (fun s => { s with prev := o.prev })
        | none => st.updLevel li (fun l => { l with tail_order := o.prev })
      let st := st.updLevel li (fun l =>
        { l with total_volume := sub32 l.total_volume o.remaining_quantity,
                 order_count := l.order_count - 1 })
      st.updSlot oi (fun s =>
        { s with parent_level := none, next := none, prev := none })
  | _, _ => st

/-- `OrderBook::find_level`: iterative BST search from `root`.  `fuel`
bounds the walk (any walk in an acyclic tree of `n` nodes takes at most `n`
steps). -/
def findLevel (st : BookSt) (price : Nat) : Nat → Option Nat → Option Nat
  | 0, _ => none
  | _, none => none
  | fuel + 1, some i =>
      match st.getLevel i with
      | none => none
      | some lv =>
          if price = lv.price then some i
          else findLevel st price fuel
                 (if price < lv.price then lv.left else lv.right)

/-- The descent part of `OrderBook::insert_level`: walk from `cur` to the
first free child slot on the search path and hang node `ni` there. -/
def insertWalk (st : BookSt) (price ni : Nat) : Nat → Nat → BookSt
  | 0, _ => st
  | fuel + 1, cur =>
      match st.getLevel cur with
      | none => st
      | some c =>
          if price < c.price then
            match c.left with
            | none =>
                let st := st.updLevel cur (fun l => { l with left := some ni })
                st.updLevel ni (fun l => { l with parent := some cur })
            | some l => insertWalk st price ni fuel l
          else
            match c.right with
            | none =>
                let st := st.updLevel cur (fun l => { l with right := some ni })
                st.updLevel ni (fun l => { l with parent := some cur })
            | some r => insertWalk st price ni fuel r

/-- `OrderBook::insert_level`: take the next slot of the level pool, reset
its fields, and link it into the BST under `root`.  Returns the updated
state, the (possibly changed) root, and the new node's index. -/
def insertLevel (st : BookSt) (price : Nat) (root : Option Nat) :
    BookSt × Option Nat × Nat :=
  let ni := st.book.levels.length
  let node : PriceLevel :=
    { price := price, total_volume := 0, order_count := 0,
      head_order := none, tail_order := none,
      parent := none, left := none, right := none }
  let st := st.setBook { st.book with levels := st.book.levels ++ [node] }
  match root with
  | none => (st, some ni, ni)
  | some ri => (insertWalk st price ni (st.book.levels.length + 1) ri, root, ni)

/-- `OrderBook::find_or_create_level` on a given side's root. -/
def findOrCreateLevel (st : BookSt) (price : Nat) (root : Option Nat) :
    BookSt × Option Nat × Nat :=
  match findLevel st price (st.book.levels.length + 1) root with
  | some li => (st, root, li)
  | none => insertLevel st price root

/-- The leftmost descendant of node `i` (successor search of
`OrderBook::remove_level`). -/
def findMinFrom (st : BookSt) : Nat → Nat → Nat
  | 0, i => i
  | fuel + 1, i =>
      match st.getLevel i with
      | none => i
      | some lv =>
          match lv.left with
          | none => i
          | some l => findMinFrom st fuel l

/-- The at-most-one-child cases of `OrderBook::remove_level`: splice the
node out of the tree, updating the parent's child pointer (or the root) and
the replacement child's parent pointer. -/
def removeLevelSimple (st : BookSt) (li : Nat) (root : Option Nat) :
    BookSt × Option Nat :=
  match st.getLevel li with
  | none => (st, root)
  | some lv =>
      match lv.left, lv.right with
      | none, none =>
          match lv.parent with
          | some pi =>
              (st.updLevel pi (fun p =>
                if p.left = some li then { p with left := none }
                else { p with right := none }), root)
          | none => (st, none)
      | none, some ri =>
          let st :=
            match lv.parent with
            | some pi =>
                st.updLevel pi (fun p =>
                  if p.left = some li then { p with left := some ri }
                  else { p with right := some ri })
            | none => st
          let root := match lv.parent with | some _ => root | none => some ri
          (st.updLevel ri (fun r => { r with parent := lv.parent }), root)
      | some lli, none =>
          let st :=
            match lv.parent with
            | some pi =>
                st.updLevel pi (fun p =>
                  if p.left = some li then { p with left := some lli }
                  else { p with right := some lli })
            | none => st
          let root := match lv.parent with | some _ => root | none => some lli
          (st.updLevel lli (fun l => { l with parent := lv.parent }), root)
      | some _, some _ => (st, root)

/-- `OrderBook::remove_level`: simple BST deletion.  In the two-children
case the in-order successor's payload (price, volume, count, FIFO
endpoints) is copied into the deleted node and the successor node is
spliced out instead — note that this does *not* retarget any `Order`
back-pointers or book best-pointers that referenced the successor. -/
def removeLevel (st : BookSt) (li : Nat) (root : Option Nat) :
    BookSt × Option Nat :=
  match st.getLevel li with
  | none => (st, root)
  | some lv =>
      match lv.left, lv.right with
      | some _, some ri =>
          let si := findMinFrom st (st.book.levels.length + 1) ri
          match st.getLevel si with
          | none => (st, root)
          | some sv =>
              let st := st.updLevel li (fun l =>
                { l with price := sv.price, total_volume := sv.total_volume,
                         order_count := sv.order_count,
                         head_order := sv.head_order,
                         tail_order := sv.tail_order })
              removeLevelSimple st si root
      | _, _ => removeLevelSimple st li root

/-- The rightmost descendant of node `i` (`OrderBook::update_best_bid`'s
scan). -/
def findMaxFrom (st : BookSt) : Nat → Nat → Nat
  | 0, i => i
  | fuel + 1, i =>
      match st.getLevel i with
      | none => i
      | some lv =>
          match lv.right with
          | none => i
          | some r => findMaxFrom st fuel r

/-- `OrderBook::update_best_bid`: rescan the bid tree for its maximum. -/
def update_best_bid (st : BookSt) : BookSt :=
  match st.book.bid_tree_root with
  | none => st.setBook { st.book with best_bid := none }
  | some r =>
      st.setBook { st.book with
        best_bid := some (findMaxFrom st (st.book.levels.length + 1) r) }

/-- `OrderBook::update_best_ask`: rescan the ask tree for its minimum. -/
def update_best_ask (st : BookSt) : BookSt :=
  match st.book.ask_tree_root with
  | none => st.setBook { st.book with best_ask := none }
  | some r =>
      st.setBook { st.book with
        best_ask := some (findMinFrom st (st.book.levels.length + 1) r) }

/-- `OrderBook::add_order`: find or create the level for the order's price
on its side, append the order to that level's FIFO, overwrite the id map
entry, update the side's best pointer if the level's price is strictly
better, and bump the book's order count. -/
def add_order (st : BookSt) (oi : Nat) : BookSt :=
  match st.getSlot oi with
  | none => st
  | some o =>
      let root := if o.side = Side.BUY then st.book.bid_tree_root
                  else st.book.ask_tree_root
      let res := findOrCreateLevel st o.price root
      let st := res.1
      let root := res.2.1
      let li := res.2.2
      let st :=
        if o.side = Side.BUY then
          st.setBook { st.book with bid_tree_root := root }
        else
          st.setBook { st.book with ask_tree_root := root }
      let st := level_add_order st li oi
      let st := st.setBook
        { st.book with orders := setAssoc st.book.orders o.order_id oi }
      let st :=
        if o.side = Side.BUY then
          match st.book.best_bid with
          | none => st.setBook { st.book with best_bid := some li }
          | some bi =>
              match st.getLevel bi, st.getLevel li with
              | some blv, some llv =>
                  if blv.price < llv.price then
                    st.setBook { st.book with best_bid := some li }
                  else st
              | _, _ => st
        else
          match st.book.best_ask with
          | none => st.setBook { st.book with best_ask := some li }
          | some bi =>
              match st.getLevel bi, st.getLevel li with
              | some blv, some llv =>
                  if llv.price < blv.price then
                    st.setBook { st.book with best_ask := some li }
                  else st
              | _, _ => st
      st.setBook { st.book with order_count := st.book.order_count + 1 }

/-- `OrderBook::cancel_order`: id-map lookup (silent no-op when absent),
unlink from the level, delete the level from its side's tree when it
empties (re-deriving the best pointer only when the deleted node *is* the
best pointer), then erase the id and decrement the book's order count. -/
def cancel_order (st : BookSt) (order_id : Nat) : BookSt :=
  match lookupA st.book.orders order_id with
  | none => st
  | some oi =>
      match st.getSlot oi with
      | none => st
      | some o =>
          match o.parent_level with
          | none => st
          | some li =>
              let st := level_remove_order st li oi
              let st :=
                match st.getLevel li with
                | none => st
                | some lv =>
                    if lv.order_count = 0 then
                      if o.side = Side.BUY then
                        let res := removeLevel st li st.book.bid_tree_root
                        let st := res.1.setBook
                          { res.1.book with bid_tree_root := res.2 }
                        if st.book.best_bid = some li then update_best_bid st
                        else st
                      else
                        let res := removeLevel st li st.book.ask_tree_root
                        let st := res.1.setBook
                          { res.1.book with ask_tree_root := res.2 }
                        if st.book.best_ask = some li then update_best_ask st
                        else st
                    else st
              st.setBook
                { st.book with orders := eraseAssoc st.book.orders order_id,
                               order_count := st.book.order_count - 1 }

/-- `OrderBook::modify_order`: id-map lookup (silent no-op when absent),
adjust the level's volume by the delta and overwrite `remaining_quantity`
with `new_quantity` — no clamping and no special case for zero. -/
def modify_order (st : BookSt) (order_id new_quantity : Nat) : BookSt :=
  match lookupA st.book.orders order_id with
  | none => st
  | some oi =>
      match st.getSlot oi with
      | none => st
      | some o =>
          match o.parent_level with
          | none => st
          | some li =>
              let st := st.updLevel li (fun l =>
                { l with total_volume := sub32 l.total_volume
                                               o.remaining_quantity })
              let st := st.updSlot oi (fun s =>
                { s with remaining_quantity := new_quantity })
              st.updLevel li (fun l =>
                { l with total_volume := add32 l.total_volume new_quantity })

/-- `OrderBook::execute_trade`: build the report.  `is_full_fill` is
computed from the aggressor's remaining quantity *before* the decrement,
so it is true iff this fill empties the aggressor. -/
def execute_trade (aggressive passive : Order) (quantity match_id : Nat) :
    ExecutionReport :=
  { order_id := aggressive.order_id, match_id := match_id,
    timestamp := aggressive.timestamp, price := passive.price,
    executed_quantity := quantity, side := aggressive.side,
    is_full_fill := aggressive.remaining_quantity == quantity }

/-- The inner FIFO walk of `OrderBook::match_order`: while a passive order
exists and the aggressor has remaining quantity, fill
`min(remaining, remaining)` at the passive's level, emit a report with the
freshly incremented `match_count_` as `match_id`, decrement both remaining
quantities and the level volume, and unlink (and erase from the id map)
any passive that is fully filled. -/
def matchInner (st : BookSt) (oi li : Nat) :
    Nat → Option Nat → List ExecutionReport →
    BookSt × List ExecutionReport
  | 0, _, rpts => (st, rpts)
  | _, none, rpts => (st, rpts)
  | fuel + 1, some pi, rpts =>
      match st.getSlot oi, st.getSlot pi with
      | some o, some p =>
          if o.remaining_quantity = 0 then (st, rpts)
          else
            let match_qty := min o.remaining_quantity p.remaining_quantity
            let st := st.setBook
              { st.book with match_count := st.book.match_count + 1 }
            let match_id := st.book.match_count
            let report := execute_trade o p match_qty match_id
            let st := st.updSlot oi (fun s =>
              { s with remaining_quantity := s.remaining_quantity - match_qty })
            let st := st.updSlot pi (fun s =>
              { s with remaining_quantity := s.remaining_quantity - match_qty })
            let st := st.updLevel li (fun l =>
              { l with total_volume := sub32 l.total_volume match_qty })
            let next_passive := p.next
            let st :=
              if p.remaining_quantity - match_qty = 0 then
                let st := level_remove_order st li pi
                let st := st.setBook
                  { st.book with
                      orders := eraseAssoc st.book.orders p.order_id,
                      order_count := st.book.order_count - 1 }
                st
              else st
            matchInner st oi li fuel next_passive (rpts ++ [report])
      | _, _ => (st, rpts)

/-- The outer level loop of `OrderBook::match_order`: while the aggressor
has remaining quantity and a contra level exists and (for LIMIT) the prices
still cross, fill against the contra level's FIFO; if that empties the
level, remove it from its tree and move the best pointer to the depleted
node's `right` child (buy aggressor) or `left` child (sell aggressor) and
continue there; otherwise stop. -/
def matchOuter (st : BookSt) (oi : Nat) :
    Nat → Option Nat → List ExecutionReport →
    BookSt × List ExecutionReport
  | 0, _, rpts => (st, rpts)
  | _, none, rpts => (st, rpts)
  | fuel + 1, some ci, rpts =>
      match st.getSlot oi, st.getLevel ci with
      | some o, some clv =>
          if o.remaining_quantity = 0 then (st, rpts)
          else if o.type = OrderType.LIMIT ∧
                  ((o.side = Side.BUY ∧ o.price < clv.price) ∨
                   (o.side = Side.SELL ∧ clv.price < o.price)) then
            (st, rpts)
          else
            let res := matchInner st oi ci (st.slots.length + 1)
                          clv.head_order rpts
            let st := res.1
            let rpts := res.2
            match st.getLevel ci with
            | none => (st, rpts)
            | some clv' =>
                if clv'.order_count = 0 then
                  let next_level :=
                    if o.side = Side.BUY then clv'.right else clv'.left
                  let st :=
                    if o.side = Side.BUY then
                      let r := removeLevel st ci st.book.ask_tree_root
                      r.1.setBook { r.1.book with ask_tree_root := r.2,
                                                  best_ask := next_level }
                    else
                      let r := removeLevel st ci st.book.bid_tree_root
                      r.1.setBook { r.1.book with bid_tree_root := r.2,
                                                  best_bid := next_level }
                  matchOuter st oi fuel next_level rpts
                else (st, rpts)
      | _, _ => (st, rpts)

/-- `OrderBook::match_order`: reject non-LIMIT/MARKET types, pick the
contra side's best level, and run the matching loops. -/
def match_order (st : BookSt) (oi : Nat) : BookSt × List ExecutionReport :=
  match st.getSlot oi with
  | none => (st, [])
  | some o =>
      if o.type ≠ OrderType.LIMIT ∧ o.type ≠ OrderType.MARKET then (st, [])
      else
        let contra := if o.side = Side.BUY then st.book.best_ask
                      else st.book.best_bid
        matchOuter st oi (st.book.levels.length + 1) contra []

/-- `OrderBook::get_total_bid_volume`: starting at the bid tree *root*,
accumulate `total_volume` while following `right` pointers (this walks only
the right spine of the tree, not all levels). -/
def gtvAux (st : BookSt) (follow : PriceLevel → Option Nat) :
    Nat → Option Nat → Nat → Nat
  | 0, _, vol => vol
  | _, none, vol => vol
  | fuel + 1, some i, vol =>
      match st.getLevel i with
      | none => vol
      | some lv => gtvAux st follow fuel (follow lv) (vol + lv.total_volume)

/-- `OrderBook::get_total_bid_volume`. -/
def get_total_bid_volume (st : BookSt) : Nat :=
  gtvAux st PriceLevel.right (st.book.levels.length + 1)
    st.book.bid_tree_root 0

/-- `OrderBook::get_total_ask_volume` (follows `left` pointers). -/
def get_total_ask_volume (st : BookSt) : Nat :=
  gtvAux st PriceLevel.left (st.book.levels.length + 1)
    st.book.ask_tree_root 0

end BookSt

/-- Observation: the set of level indices actually reachable in a side's
BST (pre-order).  This is what "levels present in the index" means. -/
def treeIndicesAux (st : BookSt) : Nat → Option Nat → List Nat
  | 0, _ => []
  | _, none => []
  | fuel + 1, some i =>
      match st.getLevel i with
      | none => []
      | some lv =>
          i :: (treeIndicesAux st fuel lv.left ++ treeIndicesAux st fuel lv.right)

/-- Level indices present in the bid index. -/
def bidIndices (st : BookSt) : List Nat :=
  treeIndicesAux st (st.book.levels.length + 1) st.book.bid_tree_root

/-- Level indices present in the ask index. -/
def askIndices (st : BookSt) : List Nat :=
  treeIndicesAux st (st.book.levels.length + 1) st.book.ask_tree_root

/-- Observation: the sum of `total_volume` over all levels present in a
side's index (the quantity the spec says the volume queries return). -/
def sumTreeVolume (st : BookSt) (idxs : List Nat) : Nat :=
  (idxs.map (fun i => ((st.getLevel i).getD
    { price := 0, total_volume := 0, order_count := 0, head_order := none,
      tail_order := none, parent := none, left := none,
      right := none }).total_volume)).foldl (· + ·) 0

/-- Observation: the FIFO of level `li`, walked from `head_order` along
`next` pointers. -/
def fifoAux (st : BookSt) : Nat → Option Nat → List Nat
  | 0, _ => []
  | _, none => []
  | fuel + 1, some oi =>
      match st.getSlot oi with
      | none => []
      | some o => oi :: fifoAux st fuel o.next

/-- The slot indices resting in level `li`'s FIFO, head first. -/
def fifoOrders (st : BookSt) (li : Nat) : List Nat :=
  match st.getLevel li with
  | none => []
  | some lv => fifoAux st (st.slots.length + 1) lv.head_order

/-- Single-book driver mirroring the book-relevant part of
`MatchingEngine::submit_order` (steps 3–5): populate a freshly allocated
arena slot, run `match_order` when the order is aggressive (MARKET, or
LIMIT crossing the opposite best), and rest it via `add_order` when it is
LIMIT with remaining quantity.  Returns the reports `match_order`
produced. -/
def submitB (st : BookSt) (id ts price qty : Nat) (side : Side)
    (ty : OrderType) : BookSt × List ExecutionReport :=
  let oi := st.slots.length
  let order : Order :=
    { order_id := id, timestamp := ts, price := price, quantity := qty,
      remaining_quantity := qty, side := side, type := ty,
      next := none, prev := none, parent_level := none }
  let st : BookSt := ⟨st.slots ++ [order], st.book⟩
  let aggressive : Bool :=
    if ty = OrderType.MARKET then true
    else if ty = OrderType.LIMIT then
      if side = Side.BUY then
        match st.book.best_ask with
        | none => false
        | some bi =>
            match st.getLevel bi with
            | none => false
            | some lv => decide (lv.price ≤ price)
      else
        match st.book.best_bid with
        | none => false
        | some bi =>
            match st.getLevel bi with
            | none => false
            | some lv => decide (price ≤ lv.price)
    else false
  let res := if aggressive then BookSt.match_order st oi else (st, [])
  let st := res.1
  let st :=
    match st.getSlot oi with
    | none => st
    | some o =>
        if 0 < o.remaining_quantity ∧ ty = OrderType.LIMIT then
          BookSt.add_order st oi
        else st
  (st, res.2)

/-- The empty single-book state. -/
def emptySt : BookSt := ⟨[], emptyBook⟩

/-! ### Concrete traces used to settle the claims -/

/-- Rest SELL id=1 price=20 qty=5: ask level node 0. -/
def sellAt20 : BookSt :=
  (submitB emptySt 1 100 20 5 Side.SELL OrderType.LIMIT).1

/-- Then rest SELL id=2 price=10 qty=5: ask node 1, left child of node 0,
and the new best ask. -/
def sellAt20and10 : BookSt :=
  (submitB sellAt20 2 101 10 5 Side.SELL OrderType.LIMIT).1

/-- Then submit BUY id=3 price=20 qty=10: crosses both resting asks. -/
def buyCross : BookSt × List ExecutionReport :=
  submitB sellAt20and10 3 102 20 10 Side.BUY OrderType.LIMIT

/-- Rest BUY id=1 p=20, BUY id=2 p=10, BUY id=3 p=30: bid tree with root
node 0 (20), left child node 1 (10), right child node 2 (30). -/
def bidTriangle : BookSt :=
  (submitB (submitB (submitB emptySt 1 100 20 5 Side.BUY OrderType.LIMIT).1
    2 101 10 5 Side.BUY OrderType.LIMIT).1
    3 102 30 5 Side.BUY OrderType.LIMIT).1

/-- Then cancel id=1: empties the interior root level, triggering the
successor-copy branch of `remove_level`. -/
def bidTriangleCancel : BookSt := BookSt.cancel_order bidTriangle 1

/-- The repository's own `MultiplePriceLevels` test fixture: BUY orders of
qty 100 at 100000, 99900, 99800 (each strictly below the previous, so the
bid tree is a left-descending chain from the root). -/
def bidsDescending : BookSt :=
  (submitB (submitB (submitB emptySt 1 100 100000 100 Side.BUY
      OrderType.LIMIT).1
    2 101 99900 100 Side.BUY OrderType.LIMIT).1
    3 102 99800 100 Side.BUY OrderType.LIMIT).1

/-- A single resting BUY id=1 qty=100 at 100000. -/
def singleBid : BookSt :=
  (submitB emptySt 1 100 100000 100 Side.BUY OrderType.LIMIT).1

/-- `modify_order(1, 0)` on the single resting bid. -/
def singleBidModifyZero : BookSt := BookSt.modify_order singleBid 1 0

/-- `modify_order(1, 150)` on the single resting bid (original qty 100). -/
def singleBidModify150 : BookSt := BookSt.modify_order singleBid 1 150

/-! ### The matching engine (`matching_engine.hpp` / `matching_engine.cpp`) -/

/-- The queue capacity the engine instantiates
(`SPSCQueue<ExecutionReport, 65536>`). -/
def QCAP : Nat := 65536

/-- `class MatchingEngine`: per-symbol book directory, the pre-allocated
order pool with its monotone cursor (`pool_index_`), the execution queue
and the aggregate counters. -/
structure Engine : Type where
  config_pool_size : Nat
  books : List (String × OrderBook)
  slots : List Order
  pool_index : Nat
  queue : SPSCQueue ExecutionReport QCAP
  total_orders : Nat
  total_matches : Nat
  running : Bool
deriving DecidableEq, Repr

/-- A freshly constructed engine with the given `order_pool_size`: the pool
is pre-allocated with default `Order()` objects and the cursor starts at
zero. -/
def mkEngine (pool_size : Nat) : Engine :=
  { config_pool_size := pool_size, books := [],
    slots := List.replicate pool_size defaultOrder, pool_index := 0,
    queue := SPSCQueue.empty ExecutionReport QCAP,
    total_orders := 0, total_matches := 0, running := false }

/-- The report-push loop of `MatchingEngine::submit_order`: push each
report, incrementing `total_matches_` per successful push, and stop at the
first full-queue failure. -/
def pushReports :
    SPSCQueue ExecutionReport QCAP → Nat → List ExecutionReport →
    SPSCQueue ExecutionReport QCAP × Nat
  | q, tm, [] => (q, tm)
  | q, tm, r :: rs =>
      let res := q.push r
      if res.1 then pushReports res.2 (tm + 1) rs else (res.2, tm)

/-- `MatchingEngine::submit_order`: get-or-create the symbol's book, bump
the pool cursor and fail (only the cursor changed) when it is past
`order_pool_size`, otherwise populate the slot, match if aggressive
(MARKET, or LIMIT crossing the opposite best), push the reports, rest a
LIMIT remainder via `add_order`, and increment `total_orders_`. -/
def Engine.submit_order (e : Engine) (sym : String) (id ts price qty : Nat)
    (side : Side) (ty : OrderType) : Engine :=
  let books0 :=
    match lookupA e.books sym with
    | some _ => e.books
    | none => setAssoc e.books sym emptyBook
  let book := (lookupA books0 sym).getD emptyBook
  let idx := e.pool_index
  if e.config_pool_size ≤ idx then
    { e with books := books0, pool_index := idx + 1 }
  else
    let old := (e.slots.get? idx).getD defaultOrder
    let order : Order :=
      { old with order_id := id, timestamp := ts, price := price,
                 quantity := qty, remaining_quantity := qty,
                 side := side, type := ty }
    let st : BookSt := ⟨e.slots.set idx order, book⟩
    let aggressive : Bool :=
      if ty = OrderType.MARKET then true
      else if ty = OrderType.LIMIT then
        if side = Side.BUY then
          match st.book.best_ask with
          | none => false
          | some bi =>
              match st.getLevel bi with
              | none => false
              | some lv => decide (lv.price ≤ price)
        else
          match st.book.best_bid with
          | none => false
          | some bi =>
              match st.getLevel bi with
              | none => false
              | some lv => decide (price ≤ lv.price)
      else false
    let res := if aggressive then BookSt.match_order st idx else (st, [])
    let st := res.1
    let qtm := pushReports e.queue e.total_matches res.2
    let st :=
      match st.getSlot idx with
      | none => st
      | some o =>
          if 0 < o.remaining_quantity ∧ ty = OrderType.LIMIT then
            BookSt.add_order st idx
          else st
    { e with books := setAssoc books0 sym st.book, slots := st.slots,
             pool_index := idx + 1, queue := qtm.1,
             total_matches := qtm.2, total_orders := e.total_orders + 1 }

/-- `MatchingEngine::cancel_order`: dispatch to the symbol's book; unknown
symbol is a no-op. -/
def Engine.cancel_order (e : Engine) (sym : String) (id : Nat) : Engine :=
  match lookupA e.books sym with
  | none => e
  | some bk =>
      let st := BookSt.cancel_order ⟨e.slots, bk⟩ id
      { e with slots := st.slots, books := setAssoc e.books sym st.book }

/-- `MatchingEngine::modify_order`: dispatch to the symbol's book; unknown
symbol is a no-op. -/
def Engine.modify_order (e : Engine) (sym : String) (id q : Nat) : Engine :=
  match lookupA e.books sym with
  | none => e
  | some bk =>
      let st := BookSt.modify_order ⟨e.slots, bk⟩ id q
      { e with slots := st.slots, books := setAssoc e.books sym st.book }

/-- An externally visible engine event. -/
inductive Event : Type where
  | submit (sym : String) (id ts price qty : Nat) (side : Side)
      (ty : OrderType) : Event
  | cancel (sym : String) (id : Nat) : Event
  | modify (sym : String) (id q : Nat) : Event
deriving DecidableEq, Repr

/-- Apply one event to the engine. -/
def stepE (e : Engine) : Event → Engine
  | Event.submit sym id ts price qty side ty =>
      e.submit_order sym id ts price qty side ty
  | Event.cancel sym id => e.cancel_order sym id
  | Event.modify sym id q => e.modify_order sym id q

/-- The number of submit events in a stream. -/
def countSubmits : List Event → Nat
  | [] => 0
  | Event.submit _ _ _ _ _ _ _ :: rest => countSubmits rest + 1
  | _ :: rest => countSubmits rest

/-- The number of submissions in a stream that fail with pool exhaustion
(the `allocate_order() == nullptr` early return), replaying the stream
from state `e`. -/
def countFailedSubmits : Engine → List Event → Nat
  | _, [] => 0
  | e, ev :: rest =>
      (match ev with
       | Event.submit _ _ _ _ _ _ _ =>
           if e.config_pool_size ≤ e.pool_index then 1 else 0
       | _ => 0) + countFailedSubmits (stepE e ev) rest

/-! ### Engine traces for the pool claims -/

/-- A stream on a pool of size 1 in which at most one order is ever
concurrently resting: submit id=1, cancel it, submit id=2. -/
def reuseTrace : List Event :=
  [Event.submit "A" 1 0 100 10 Side.BUY OrderType.LIMIT,
   Event.cancel "A" 1,
   Event.submit "A" 2 1 100 10 Side.BUY OrderType.LIMIT]

/-- The engine states along `reuseTrace` from a pool of size 1. -/
def reuse1 : Engine :=
  stepE (mkEngine 1) (Event.submit "A" 1 0 100 10 Side.BUY OrderType.LIMIT)

/-- After the cancel. -/
def reuse2 : Engine := stepE reuse1 (Event.cancel "A" 1)

/-- After the second submit (which hits pool exhaustion). -/
def reuse3 : Engine :=
  stepE reuse2 (Event.submit "A" 2 1 100 10 Side.BUY OrderType.LIMIT)

/-- A concrete well-formed SPSC queue over `Nat` with capacity `2^2`:
one element (5) stored at index 0, `tail = 0`, `head = 1`. -/
def spscW : SPSCQueue Nat (2 ^ 2) := ⟨1, 0, [5, 6, 7, 8]⟩

/-- The duplicate-id scenario of claim C10: two non-crossing BUY LIMIT
submissions with the *same* `order_id` at the same price on a fresh book
(quantities `q1` then `q2`), driven through the submit path. -/
def dupSt2 (id ts1 ts2 p q1 q2 : Nat) : BookSt :=
  (submitB (submitB emptySt id ts1 p q1 Side.BUY OrderType.LIMIT).1
    id ts2 p q2 Side.BUY OrderType.LIMIT).1

end LOB

namespace LOB

/-! ### Helper lemmas about the state primitives -/

/-- `updLevel` never touches the order arena. -/
theorem updLevel_slots (st : BookSt) (i : Nat) (f : PriceLevel → PriceLevel) :
    (st.updLevel i f).slots = st.slots := by
  unfold BookSt.updLevel
  cases st.book.levels.get? i <;> rfl

/-- `updLevel` never touches the id map. -/
theorem updLevel_orders (st : BookSt) (i : Nat)
    (f : PriceLevel → PriceLevel) :
    (st.updLevel i f).book.orders = st.book.orders := by
  unfold BookSt.updLevel
  cases st.book.levels.get? i <;> rfl

/-- Reading back the slot just mutated by `updSlot`. -/
theorem updSlot_get_self (st : BookSt) (i : Nat) (f : Order → Order)
    (o : Order) (h : st.slots.get? i = some o) :
    (st.updSlot i f).slots.get? i = some (f o) := by
  unfold BookSt.updSlot
  rw [h]
  have hlen : i < st.slots.length := by
    rcases Nat.lt_or_ge i st.slots.length with h' | h'
    · exact h'
    · rw [List.get?_len_le h'] at h; cases h
  simp [List.getElem?_set_self', List.get?_eq_getElem?, hlen]

/-- `updSlot` never touches the book. -/
theorem updSlot_book (st : BookSt) (i : Nat) (f : Order → Order) :
    (st.updSlot i f).book = st.book := by
  unfold BookSt.updSlot
  cases st.slots.get? i <;> rfl

/-- Looking up the key just written by `setAssoc`. -/
theorem lookupA_setAssoc_self {α β : Type} [BEq α] [LawfulBEq α]
    (m : List (α × β)) (k : α) (v : β) :
    lookupA (setAssoc m k v) k = some v := by
  unfold lookupA setAssoc
  rw [List.find?_cons_of_pos _ (by simp)]
  rfl

/-! ### Claim theorems -/

/-- **C1** (code bug, matching path).  Spec: when matching depletes the
best contra level, the best pointer moves to the true next-best level of
that side.  Code: `match_order` sets the best pointer to the depleted BST
node's child (`right` for a buy), which is null whenever the best ask has
no right child even though higher ask levels remain.  At the failing input
(resting asks 20 and 10, then BUY LIMIT 20 qty 10): after the level at 10
is depleted, `best_ask_` becomes null although the ask index still holds
the level at price 20, so the non-null-implies-extremum invariant's
companion next-best guarantee is violated and matching stops early. -/
theorem best_ask_dropped_to_null_after_depletion :
    (buyCross.1.book.best_ask = none) ∧
    askIndices buyCross.1 = [0] ∧
    (buyCross.1.getLevel 0).map PriceLevel.price = some 20 ∧
    (buyCross.1.getLevel 0).map PriceLevel.order_count = some 1 := by
  decide

/-- **C2** (code bug, cancel path).  Spec: every resting order's level
back-pointer refers to a level present in its side's index.  Code:
`remove_level` on a node with two children copies the in-order successor's
payload (price, volume, FIFO endpoints) into the deleted node and splices
the successor out, without retargeting the `parent_level` pointers of the
orders that rested in the successor.  At the failing input (bids at 20, 10,
30, then cancel of the order at 20): order id=3 is still resting (id map →
slot 2) and is the head of tree node 0, but its `parent_level` still
points at node 2, which is no longer reachable in the bid index; the stale
node 2 is also still the book's `best_bid_`. -/
theorem stale_parent_level_after_interior_cancel :
    lookupA bidTriangleCancel.book.orders 3 = some 2 ∧
    (bidTriangleCancel.getSlot 2).map Order.parent_level = some (some 2) ∧
    bidIndices bidTriangleCancel = [0, 1] ∧
    (bidTriangleCancel.getLevel 0).map PriceLevel.head_order =
      some (some 2) ∧
    bidTriangleCancel.book.best_bid = some 2 := by
  decide

/-- **C3** (code bug).  Spec and the repository's own
`MultiplePriceLevels` test: `total_bid_volume` is the sum of
`total_volume` over all bid levels (300 here).  Code:
`get_total_bid_volume` follows only `right` pointers from the tree root,
so it misses every level in a left subtree and returns 100 on the test's
own fixture. -/
theorem total_bid_volume_misses_left_subtree :
    BookSt.get_total_bid_volume bidsDescending = 100 ∧
    sumTreeVolume bidsDescending (bidIndices bidsDescending) = 300 := by
  decide

/-- **C4** (code bug, level walk).  Spec: reports are generated by walking
the contra FIFO head-to-tail and then level by level from best outward.
Code: after depleting a level, matching continues at that node's child
pointer rather than the true next-best level.  At the failing input
(resting asks 20 and 10, BUY LIMIT 20 qty 10), the aggressor fills only
the level at 10 — one report, price 10, not a full fill — and stops with
remaining qty 5 even though the crossing level at price 20 with volume 5
is still present; the per-fill fields of the one report that is produced
(min quantity, passive price, aggressor timestamp, full-fill flag) are as
specified. -/
theorem match_walk_stops_before_next_best_level :
    buyCross.2 = [{ order_id := 3, match_id := 1, timestamp := 102,
                    price := 10, executed_quantity := 5, side := Side.BUY,
                    is_full_fill := false }] ∧
    (buyCross.1.getSlot 2).map Order.remaining_quantity = some 5 ∧
    askIndices buyCross.1 = [0] ∧
    (buyCross.1.getLevel 0).map PriceLevel.total_volume = some 5 ∧
    (buyCross.1.getLevel 0).map PriceLevel.price = some 20 := by
  decide

/-- **C5** (code bug).  Spec mandate: `modify_order(id, 0)` is equivalent
to `cancel_order(id)`.  Code: `modify_order` has no special case for zero;
at the failing input (resting BUY id=1 qty=100 then `modify_order(1, 0)`)
the order stays in the id map and in its level's FIFO with
`remaining_quantity = 0`, and the level is not removed. -/
theorem modify_zero_leaves_order_resting :
    lookupA singleBidModifyZero.book.orders 1 = some 0 ∧
    (singleBidModifyZero.getSlot 0).map Order.remaining_quantity = some 0 ∧
    fifoOrders singleBidModifyZero 0 = [0] ∧
    (singleBidModifyZero.getLevel 0).map PriceLevel.order_count = some 1 ∧
    bidIndices singleBidModifyZero = [0] := by
  decide

/-- **C6 counterexample.**  The claim says every resting order satisfies
`remaining_quantity ≤ original_quantity` (and positivity) after every
operation, in particular after any `modify_order`.  At the concrete input
(resting BUY id=1 original qty 100, then `modify_order(1, 150)`) the order
is still resting with `remaining_quantity = 150 > 100 = quantity`. -/
theorem modify_increase_breaks_remaining_le_original :
    lookupA singleBidModify150.book.orders 1 = some 0 ∧
    (singleBidModify150.getSlot 0).map Order.remaining_quantity = some 150 ∧
    (singleBidModify150.getSlot 0).map Order.quantity = some 100 := by
  decide

/-- **C6** (amended).  `modify_order(id, q)` on a resting order sets its
`remaining_quantity` to exactly `q` — unclamped, with `original_quantity`
untouched — and leaves the order in the id map; hence
`remaining_quantity ≤ original_quantity` and `remaining_quantity > 0` hold
after a modify iff `0 < q ≤ original_quantity` (they are preserved by the
quantity-decreasing operations but not by `modify_order`). -/
theorem modify_order_sets_remaining_exactly (st : BookSt) (id q oi li : Nat)
    (o : Order) (h1 : lookupA st.book.orders id = some oi)
    (h2 : st.slots.get? oi = some o) (h3 : o.parent_level = some li) :
    (BookSt.modify_order st id q).slots.get? oi =
      some { o with remaining_quantity := q } ∧
    (BookSt.modify_order st id q).book.orders = st.book.orders := by
  have hg : BookSt.getSlot st oi = some o := h2
  simp only [BookSt.modify_order, h1, hg, h3]
  constructor
  · rw [updLevel_slots, ← h3]
    refine updSlot_get_self _ _ _ o ?_
    rw [updLevel_slots]
    exact h2
  · rw [updLevel_orders, updSlot_book, updLevel_orders]

/-- Witness for `modify_order_sets_remaining_exactly` at the concrete
single-bid book with `q = 150`. -/
theorem modify_order_sets_remaining_exactly_witness :
    (BookSt.modify_order singleBid 1 150).slots.get? 0 =
      some { order_id := 1, timestamp := 100, price := 100000,
             quantity := 100, remaining_quantity := 150, side := Side.BUY,
             type := OrderType.LIMIT, next := none, prev := none,
             parent_level := some 0 } ∧
    (BookSt.modify_order singleBid 1 150).book.orders =
      singleBid.book.orders :=
  modify_order_sets_remaining_exactly singleBid 1 150 0 0
    { order_id := 1, timestamp := 100, price := 100000, quantity := 100,
      remaining_quantity := 100, side := Side.BUY, type := OrderType.LIMIT,
      next := none, prev := none, parent_level := some 0 }
    (by decide) (by decide) (by decide)

/-- **C7** (confirmed).  When the pool cursor is at or past
`order_pool_size`, `submit_order` fails cleanly: it returns normally with
only the cursor bumped — the target book is present but untouched (a
freshly created empty book when the symbol was new), no slot is written,
nothing is pushed on the execution queue, and neither `total_orders_` nor
`total_matches_` is incremented. -/
theorem submit_fails_cleanly_when_pool_exhausted (e : Engine) (sym : String)
    (id ts price qty : Nat) (side : Side) (ty : OrderType)
    (h : e.config_pool_size ≤ e.pool_index) :
    lookupA (e.submit_order sym id ts price qty side ty).books sym =
      some ((lookupA e.books sym).getD emptyBook) ∧
    (e.submit_order sym id ts price qty side ty).slots = e.slots ∧
    (e.submit_order sym id ts price qty side ty).queue = e.queue ∧
    (e.submit_order sym id ts price qty side ty).total_orders =
      e.total_orders ∧
    (e.submit_order sym id ts price qty side ty).total_matches =
      e.total_matches ∧
    (e.submit_order sym id ts price qty side ty).pool_index =
      e.pool_index + 1 := by
  simp only [Engine.submit_order]
  rw [if_pos h]
  refine ⟨?_, rfl, rfl, rfl, rfl, rfl⟩
  cases hb : lookupA e.books sym with
  | none => simp [hb, lookupA_setAssoc_self]
  | some b => simp [hb]

/-- Witness for `submit_fails_cleanly_when_pool_exhausted` on a
zero-capacity engine. -/
theorem submit_fails_cleanly_when_pool_exhausted_witness :
    lookupA ((mkEngine 0).submit_order "A" 1 2 3 4 Side.BUY
        OrderType.LIMIT).books "A" =
      some ((lookupA (mkEngine 0).books "A").getD emptyBook) ∧
    ((mkEngine 0).submit_order "A" 1 2 3 4 Side.BUY
        OrderType.LIMIT).slots = (mkEngine 0).slots ∧
    ((mkEngine 0).submit_order "A" 1 2 3 4 Side.BUY
        OrderType.LIMIT).queue = (mkEngine 0).queue ∧
    ((mkEngine 0).submit_order "A" 1 2 3 4 Side.BUY
        OrderType.LIMIT).total_orders = (mkEngine 0).total_orders ∧
    ((mkEngine 0).submit_order "A" 1 2 3 4 Side.BUY
        OrderType.LIMIT).total_matches = (mkEngine 0).total_matches ∧
    ((mkEngine 0).submit_order "A" 1 2 3 4 Side.BUY
        OrderType.LIMIT).pool_index = (mkEngine 0).pool_index + 1 :=
  submit_fails_cleanly_when_pool_exhausted (mkEngine 0) "A" 1 2 3 4
    Side.BUY OrderType.LIMIT (by decide)

/-- `submit_order` always advances the pool cursor by exactly one (also on
the exhaustion path) and never touches the configured capacity. -/
theorem submit_order_pool_cursor (e : Engine) (sym : String)
    (id ts price qty : Nat) (side : Side) (ty : OrderType) :
    (e.submit_order sym id ts price qty side ty).pool_index =
      e.pool_index + 1 ∧
    (e.submit_order sym id ts price qty side ty).config_pool_size =
      e.config_pool_size := by
  simp only [Engine.submit_order]
  constructor <;> (split <;> rfl)

/-- `cancel_order` touches neither the pool cursor nor the capacity. -/
theorem cancel_order_pool_cursor (e : Engine) (sym : String) (id : Nat) :
    (e.cancel_order sym id).pool_index = e.pool_index ∧
    (e.cancel_order sym id).config_pool_size = e.config_pool_size := by
  unfold Engine.cancel_order
  cases lookupA e.books sym <;> exact ⟨rfl, rfl⟩

/-- `modify_order` touches neither the pool cursor nor the capacity. -/
theorem modify_order_pool_cursor (e : Engine) (sym : String) (id q : Nat) :
    (e.modify_order sym id q).pool_index = e.pool_index ∧
    (e.modify_order sym id q).config_pool_size = e.config_pool_size := by
  unfold Engine.modify_order
  cases lookupA e.books sym <;> exact ⟨rfl, rfl⟩

/-- **C8 counterexample.**  The claim says fully filled or cancelled orders
return their pool capacity, so a stream whose concurrently resting orders
never exceed `order_pool_size` never hits exhaustion.  On a pool of size 1,
`reuseTrace` (submit id=1, cancel it, submit id=2) keeps at most one order
resting at any time — the book's order count is 1 after the first submit
and 0 after the cancel — yet the second submit fails with pool exhaustion:
one failed submission, id=2 is nowhere in the book, and `total_orders`
stays 1. -/
theorem pool_not_reclaimed_after_cancel :
    countFailedSubmits (mkEngine 1) reuseTrace = 1 ∧
    (lookupA reuse1.books "A").map OrderBook.order_count = some 1 ∧
    (lookupA reuse2.books "A").map OrderBook.order_count = some 0 ∧
    (lookupA reuse3.books "A").bind (fun b => lookupA b.orders 2) = none ∧
    reuse3.total_orders = 1 := by
  decide

/-- **C8** (amended).  `deallocate_order` is a no-op and the pool cursor
only ever advances, so `order_pool_size` caps *lifetime* submissions, not
concurrently outstanding orders: an event stream experiences no
pool-exhaustion failure iff enough capacity remains for its total number
of submit events.  Formally: replaying any stream whose submit count fits
in the remaining capacity produces zero failed submissions. -/
theorem pool_capacity_is_lifetime_cap (evs : List Event) (e : Engine)
    (h : e.pool_index + countSubmits evs ≤ e.config_pool_size) :
    countFailedSubmits e evs = 0 := by
  induction evs generalizing e with
  | nil => rfl
  | cons ev rest ih =>
      cases ev with
      | submit sym id ts price qty side ty =>
          rw [show countSubmits
                (Event.submit sym id ts price qty side ty :: rest) =
              countSubmits rest + 1 from rfl] at h
          have h1 : ¬ e.config_pool_size ≤ e.pool_index := by omega
          show (if e.config_pool_size ≤ e.pool_index then 1 else 0) +
              countFailedSubmits
                (stepE e (Event.submit sym id ts price qty side ty)) rest = 0
          rw [if_neg h1, Nat.zero_add]
          apply ih
          have hp := submit_order_pool_cursor e sym id ts price qty side ty
          show (e.submit_order sym id ts price qty side ty).pool_index +
              countSubmits rest ≤
              (e.submit_order sym id ts price qty side ty).config_pool_size
          rw [hp.1, hp.2]
          omega
      | cancel sym id =>
          rw [show countSubmits (Event.cancel sym id :: rest) =
              countSubmits rest from rfl] at h
          show 0 + countFailedSubmits (stepE e (Event.cancel sym id)) rest = 0
          rw [Nat.zero_add]
          apply ih
          have hp := cancel_order_pool_cursor e sym id
          show (e.cancel_order sym id).pool_index + countSubmits rest ≤
              (e.cancel_order sym id).config_pool_size
          rw [hp.1, hp.2]
          omega
      | modify sym id q =>
          rw [show countSubmits (Event.modify sym id q :: rest) =
              countSubmits rest from rfl] at h
          show 0 + countFailedSubmits (stepE e (Event.modify sym id q)) rest = 0
          rw [Nat.zero_add]
          apply ih
          have hp := modify_order_pool_cursor e sym id q
          show (e.modify_order sym id q).pool_index + countSubmits rest ≤
              (e.modify_order sym id q).config_pool_size
          rw [hp.1, hp.2]
          omega

/-- Witness for `pool_capacity_is_lifetime_cap`: two submissions on a pool
of size two never fail. -/
theorem pool_capacity_is_lifetime_cap_witness :
    countFailedSubmits (mkEngine 2)
      [Event.submit "A" 1 0 100 10 Side.BUY OrderType.LIMIT,
       Event.submit "A" 2 0 100 10 Side.BUY OrderType.LIMIT] = 0 :=
  pool_capacity_is_lifetime_cap _ (mkEngine 2) (by decide)

/-- Size bound and the full/empty flag characterisations of the SPSC
ring (auxiliary to the C9 theorem). -/
theorem spsc_flags_aux (T : Type) [Inhabited T] (k : Nat)
    (q : SPSCQueue T (2 ^ k)) (hq : q.wf) (x : T) :
    q.size ≤ 2 ^ k - 1 ∧
    ((q.push x).1 = false ↔ q.size = 2 ^ k - 1) ∧
    (q.pop.1 = none ↔ q.size = 0) := by
  obtain ⟨hh, ht, hlen⟩ := hq
  have hC : 0 < 2 ^ k := pow_pos (by norm_num) k
  have hmask : ∀ n : Nat, n &&& (2 ^ k - 1) = n % 2 ^ k := fun n =>
    Nat.and_pow_two_sub_one_eq_mod n k
  have hm1 : (q.head + 1) % 2 ^ k =
      if q.head + 1 = 2 ^ k then 0 else q.head + 1 := by
    by_cases hcc : q.head + 1 = 2 ^ k
    · simp [hcc, Nat.mod_self]
    · have hle : q.head + 1 ≤ 2 ^ k := hh
      have hlt : q.head + 1 < 2 ^ k := lt_of_le_of_ne hle hcc
      simp [hcc, Nat.mod_eq_of_lt hlt]
  have hsizedef : q.size =
      if q.tail ≤ q.head then q.head - q.tail
      else 2 ^ k - q.tail + q.head := rfl
  have hszbound : q.size ≤ 2 ^ k - 1 := by
    rw [hsizedef]; split <;> omega
  have hkey : ((q.head + 1) &&& (2 ^ k - 1) = q.tail) ↔
      q.size = 2 ^ k - 1 := by
    rw [hmask, hm1, hsizedef]
    split <;> split <;> omega
  have hpushfst : (q.push x).1 = false ↔ q.size = 2 ^ k - 1 := by
    rw [← hkey, hmask]
    unfold SPSCQueue.push
    by_cases hp : (q.head + 1) % 2 ^ k = q.tail
    · simp [hmask, hp]
    · simp [hmask, hp]
  have hszzero : q.tail = q.head ↔ q.size = 0 := by
    rw [hsizedef]; split <;> omega
  have hpopfst : q.pop.1 = none ↔ q.size = 0 := by
    rw [← hszzero]
    unfold SPSCQueue.pop
    by_cases hp : q.tail = q.head
    · simp [hp]
    · have hvt : q.tail < q.buffer.length := by omega
      obtain ⟨v, hv⟩ : ∃ v, q.buffer.get? q.tail = some v := by
        cases hgv : q.buffer.get? q.tail with
        | none => rw [List.get?_eq_none] at hgv; omega
        | some v => exact ⟨v, rfl⟩
      simp [hp, hv]
      exact hvt
  exact ⟨hszbound, hpushfst, hpopfst⟩

/-- A successful `push` appends the item to the abstract contents
(auxiliary to the C9 theorem). -/
theorem spsc_push_toList_aux (T : Type) [Inhabited T] (k : Nat)
    (q : SPSCQueue T (2 ^ k)) (hq : q.wf) (x : T) :
    (q.push x).1 = true →
      (q.push x).2.wf ∧ (q.push x).2.toList = q.toList ++ [x] := by
  obtain ⟨hh, ht, hlen⟩ := hq
  have hC : 0 < 2 ^ k := pow_pos (by norm_num) k
  have hmask : ∀ n : Nat, n &&& (2 ^ k - 1) = n % 2 ^ k := fun n =>
    Nat.and_pow_two_sub_one_eq_mod n k
  have hm1 : (q.head + 1) % 2 ^ k =
      if q.head + 1 = 2 ^ k then 0 else q.head + 1 := by
    by_cases hcc : q.head + 1 = 2 ^ k
    · simp [hcc, Nat.mod_self]
    · have hle : q.head + 1 ≤ 2 ^ k := hh
      have hlt : q.head + 1 < 2 ^ k := lt_of_le_of_ne hle hcc
      simp [hcc, Nat.mod_eq_of_lt hlt]
  have hsizedef : q.size =
      if q.tail ≤ q.head then q.head - q.tail
      else 2 ^ k - q.tail + q.head := rfl
  intro hps
  have hp' : ¬ ((q.head + 1) % 2 ^ k = q.tail) := by
    intro heq
    have hfalse : (q.push x).1 = false := by
      unfold SPSCQueue.push
      simp only [hmask]
      rw [if_pos heq]
    rw [hps] at hfalse
    cases hfalse
  have hpuq : q.push x =
      (true, ⟨(q.head + 1) % 2 ^ k, q.tail, q.buffer.set q.head x⟩) := by
    unfold SPSCQueue.push
    simp only [hmask]
    rw [if_neg hp']
  rw [hpuq]
  constructor
  · exact ⟨Nat.mod_lt _ hC, ht, by rw [List.length_set]; exact hlen⟩
  · show SPSCQueue.toList
        (⟨(q.head + 1) % 2 ^ k, q.tail, q.buffer.set q.head x⟩ :
          SPSCQueue T (2 ^ k)) = q.toList ++ [x]
    have hsq' : SPSCQueue.size
        (⟨(q.head + 1) % 2 ^ k, q.tail, q.buffer.set q.head x⟩ :
          SPSCQueue T (2 ^ k)) = q.size + 1 := by
      unfold SPSCQueue.size
      dsimp only
      by_cases hA : q.head + 1 = 2 ^ k
      · have hB : (q.head + 1) % 2 ^ k = 0 := by rw [hm1, if_pos hA]
        have hp2 : q.tail ≠ 0 := fun h0 => hp' (by rw [hB, h0])
        simp only [hB]
        split <;> split <;> omega
      · have hB : (q.head + 1) % 2 ^ k = q.head + 1 := by rw [hm1, if_neg hA]
        have hp2 : q.head + 1 ≠ q.tail := fun hE => hp' (by rw [hB]; exact hE)
        simp only [hB]
        split <;> split <;> omega
    have hidx : (q.tail + q.size) % 2 ^ k = q.head := by
      rw [hsizedef]
      by_cases hT : q.tail ≤ q.head
      · rw [if_pos hT]
        have harith : q.tail + (q.head - q.tail) = q.head := by omega
        rw [harith, Nat.mod_eq_of_lt hh]
      · rw [if_neg hT]
        have harith : q.tail + (2 ^ k - q.tail + q.head) = 2 ^ k + q.head := by
          omega
        rw [harith, Nat.add_mod_left, Nat.mod_eq_of_lt hh]
    have hhl : q.head < q.buffer.length := by omega
    have hgetx : (q.buffer.set q.head x).getD q.head default = x := by
      rw [List.getD_eq_getElem?_getD]
      simp [List.getElem?_set_self', hhl]
    have hszb : q.size ≤ 2 ^ k - 1 := by
      rw [hsizedef]; split <;> omega
    have hpart1 : ∀ i ∈ List.range q.size,
        (q.buffer.set q.head x).getD ((q.tail + i) % 2 ^ k) default =
        q.buffer.getD ((q.tail + i) % 2 ^ k) default := by
      intro i hi
      rw [List.mem_range] at hi
      have hilt : i < 2 ^ k := by omega
      have hchar : (q.tail + i) % 2 ^ k =
          if q.tail + i < 2 ^ k then q.tail + i else q.tail + i - 2 ^ k := by
        by_cases hc : q.tail + i < 2 ^ k
        · rw [if_pos hc, Nat.mod_eq_of_lt hc]
        · rw [if_neg hc]
          have h2 : q.tail + i - 2 ^ k < 2 ^ k := by omega
          rw [Nat.mod_eq_sub_mod (by omega), Nat.mod_eq_of_lt h2]
      have hne : (q.tail + i) % 2 ^ k ≠ q.head := by
        rw [hchar]
        rw [hsizedef] at hi
        split at hi <;> split <;> omega
      rw [List.getD_eq_getElem?_getD, List.getD_eq_getElem?_getD,
        List.getElem?_set_ne (Ne.symm hne)]
    unfold SPSCQueue.toList
    rw [hsq', List.range_succ, List.map_append,
      List.map_congr_left hpart1]
    congr 1
    simp only [List.map_cons, List.map_nil]
    rw [hidx, hgetx]

/-- `pop` returns the oldest element and drops it from the abstract
contents (auxiliary to the C9 theorem). -/
theorem spsc_pop_toList_aux (T : Type) [Inhabited T] (k : Nat)
    (q : SPSCQueue T (2 ^ k)) (hq : q.wf) :
    q.pop.1 = q.toList.head? ∧
    (q.pop.2.wf ∧ q.pop.2.toList = q.toList.tail) := by
  obtain ⟨hh, ht, hlen⟩ := hq
  have hC : 0 < 2 ^ k := pow_pos (by norm_num) k
  have hmask : ∀ n : Nat, n &&& (2 ^ k - 1) = n % 2 ^ k := fun n =>
    Nat.and_pow_two_sub_one_eq_mod n k
  have hm2 : (q.tail + 1) % 2 ^ k =
      if q.tail + 1 = 2 ^ k then 0 else q.tail + 1 := by
    by_cases hcc : q.tail + 1 = 2 ^ k
    · simp [hcc, Nat.mod_self]
    · have hle : q.tail + 1 ≤ 2 ^ k := ht
      have hlt : q.tail + 1 < 2 ^ k := lt_of_le_of_ne hle hcc
      simp [hcc, Nat.mod_eq_of_lt hlt]
  have hsizedef : q.size =
      if q.tail ≤ q.head then q.head - q.tail
      else 2 ^ k - q.tail + q.head := rfl
  by_cases hp : q.tail = q.head
  · have h0 : q.size = 0 := by rw [hsizedef]; split <;> omega
    have hpop : q.pop = (none, q) := by
      unfold SPSCQueue.pop
      rw [if_pos hp]
    rw [hpop]
    refine ⟨?_, ⟨hh, ht, hlen⟩, ?_⟩
    · simp [SPSCQueue.toList, h0]
    · simp [SPSCQueue.toList, h0]
  · have hszpos : 0 < q.size := by rw [hsizedef]; split <;> omega
    obtain ⟨m, hm⟩ : ∃ m, q.size = m + 1 := ⟨q.size - 1, by omega⟩
    have hvt : q.tail < q.buffer.length := by omega
    obtain ⟨v, hv⟩ : ∃ v, q.buffer.get? q.tail = some v := by
      cases hgv : q.buffer.get? q.tail with
      | none => rw [List.get?_eq_none] at hgv; omega
      | some v => exact ⟨v, rfl⟩
    have hgd : q.buffer.getD q.tail default = v := by
      rw [List.getD_eq_getElem?_getD, ← List.get?_eq_getElem?, hv]
      rfl
    have hpop : q.pop =
        (q.buffer.get? q.tail,
          ⟨q.head, (q.tail + 1) % 2 ^ k, q.buffer⟩) := by
      unfold SPSCQueue.pop
      simp only [hmask]
      rw [if_neg hp]
    have htolist : q.toList =
        q.buffer.getD q.tail default ::
          (List.range m).map
            (fun i => q.buffer.getD ((q.tail + Nat.succ i) % 2 ^ k) default) := by
      unfold SPSCQueue.toList
      rw [hm, List.range_succ_eq_map, List.map_cons, List.map_map]
      rw [Nat.add_zero, Nat.mod_eq_of_lt ht]
      rfl
    rw [hpop]
    refine ⟨?_, ⟨hh, Nat.mod_lt _ hC, hlen⟩, ?_⟩
    · dsimp only
      rw [hv, htolist, List.head?_cons, hgd]
    · -- toList of the popped queue
      have hsz2 : SPSCQueue.size
          (⟨q.head, (q.tail + 1) % 2 ^ k, q.buffer⟩ :
            SPSCQueue T (2 ^ k)) = m := by
        unfold SPSCQueue.size
        dsimp only
        rw [hsizedef] at hm
        by_cases hA : q.tail + 1 = 2 ^ k
        · have hB : (q.tail + 1) % 2 ^ k = 0 := by rw [hm2, if_pos hA]
          simp only [hB]
          split <;> [skip; skip] <;> split at hm <;> omega
        · have hB : (q.tail + 1) % 2 ^ k = q.tail + 1 := by
            rw [hm2, if_neg hA]
          simp only [hB]
          split <;> split at hm <;> omega
      show SPSCQueue.toList
          (⟨q.head, (q.tail + 1) % 2 ^ k, q.buffer⟩ :
            SPSCQueue T (2 ^ k)) =
        q.toList.tail
      rw [htolist, List.tail_cons]
      unfold SPSCQueue.toList
      rw [hsz2]
      dsimp only
      refine List.map_congr_left ?_
      intro i hi
      have hidx : ((q.tail + 1) % 2 ^ k + i) % 2 ^ k =
          (q.tail + Nat.succ i) % 2 ^ k := by
        rw [Nat.mod_add_mod]
        congr 1
        omega
      rw [hidx]

/-- **C9** (confirmed).  The SPSC queue with power-of-two template capacity
`C = 2^k` is a bounded FIFO holding at most `C - 1` elements: `push`
returns `false` exactly when `C - 1` elements are stored (one slot is
always unused), `pop` returns `none` exactly when the queue is empty, a
successful `push` appends the item unchanged to the abstract contents, and
`pop` always returns the oldest element and removes it, so any sequence of
pushes is popped in push order with the values unchanged. -/
theorem spsc_queue_bounded_fifo (T : Type) [Inhabited T] (k : Nat)
    (q : SPSCQueue T (2 ^ k)) (hq : q.wf) (x : T) :
    q.size ≤ 2 ^ k - 1 ∧
    ((q.push x).1 = false ↔ q.size = 2 ^ k - 1) ∧
    (q.pop.1 = none ↔ q.size = 0) ∧
    ((q.push x).1 = true →
      (q.push x).2.wf ∧ (q.push x).2.toList = q.toList ++ [x]) ∧
    q.pop.1 = q.toList.head? ∧
    (q.pop.2.wf ∧ q.pop.2.toList = q.toList.tail) :=
  ⟨(spsc_flags_aux T k q hq x).1, (spsc_flags_aux T k q hq x).2.1,
   (spsc_flags_aux T k q hq x).2.2, spsc_push_toList_aux T k q hq x,
   (spsc_pop_toList_aux T k q hq).1, (spsc_pop_toList_aux T k q hq).2⟩

/-- Witness for `spsc_queue_bounded_fifo` at the concrete queue `spscW`
(capacity 4, one stored element) and pushed value 9. -/
theorem spsc_queue_bounded_fifo_witness :
    spscW.size ≤ 2 ^ 2 - 1 ∧
    ((spscW.push 9).1 = false ↔ spscW.size = 2 ^ 2 - 1) ∧
    (spscW.pop.1 = none ↔ spscW.size = 0) ∧
    ((spscW.push 9).1 = true →
      (spscW.push 9).2.wf ∧ (spscW.push 9).2.toList = spscW.toList ++ [9]) ∧
    spscW.pop.1 = spscW.toList.head? ∧
    (spscW.pop.2.wf ∧ spscW.pop.2.toList = spscW.toList.tail) :=
  spsc_queue_bounded_fifo Nat 2 spscW ⟨by decide, by decide, by decide⟩ 9

/-- `uint32_t` addition does not wrap below 2^32. -/
theorem add32_eq_of_lt {a b : Nat} (h : a + b < U32) : add32 a b = a + b := by
  unfold add32 U32 at *
  omega

/-- `uint32_t` subtraction does not wrap when the subtrahend fits. -/
theorem sub32_eq_of_le {a b : Nat} (hb : b ≤ a) (ha : a < U32) :
    sub32 a b = a - b := by
  unfold sub32 U32 at *
  omega

/-- Evaluation of the first submission of the duplicate-id scenario. -/
theorem dupSubmit_step1 (id p q1 ts1 : Nat)
    (hq1 : 0 < q1) (h1 : q1 < U32) :
    (submitB emptySt id ts1 p q1 Side.BUY OrderType.LIMIT).1 =
      ⟨[⟨id, ts1, p, q1, q1, Side.BUY, OrderType.LIMIT, none, none, some 0⟩],
       ⟨[⟨p, q1, 1, some 0, some 0, none, none, none⟩], some 0, none, some 0,
        none, [(id, 0)], 1, 0⟩⟩ := by
  have hA1 : add32 0 q1 = q1 := by
    rw [add32_eq_of_lt (by omega)]
    omega
  simp [submitB, BookSt.add_order, BookSt.findOrCreateLevel, BookSt.findLevel,
    BookSt.insertLevel, BookSt.insertWalk, BookSt.level_add_order,
    BookSt.getSlot, BookSt.getLevel, BookSt.updSlot, BookSt.updLevel,
    BookSt.setBook, setAssoc, lookupA, emptySt, emptyBook, hq1, hA1]

/-- Evaluation of the second (duplicate-id) submission: the id map entry is
overwritten to slot 1 while slot 0 stays linked in the level FIFO and its
quantity stays in `total_volume`. -/
theorem dupSubmit_step2 (id p q1 q2 ts1 ts2 : Nat)
    (hq2 : 0 < q2) (hsum : q1 + q2 < U32) :
    (submitB
      ⟨[⟨id, ts1, p, q1, q1, Side.BUY, OrderType.LIMIT, none, none, some 0⟩],
       ⟨[⟨p, q1, 1, some 0, some 0, none, none, none⟩], some 0, none, some 0,
        none, [(id, 0)], 1, 0⟩⟩ id ts2 p q2 Side.BUY OrderType.LIMIT).1 =
      ⟨[⟨id, ts1, p, q1, q1, Side.BUY, OrderType.LIMIT, some 1, none, some 0⟩,
        ⟨id, ts2, p, q2, q2, Side.BUY, OrderType.LIMIT, none, some 0, some 0⟩],
       ⟨[⟨p, q1 + q2, 2, some 0, some 1, none, none, none⟩], some 0, none,
        some 0, none, [(id, 1)], 2, 0⟩⟩ := by
  have hA3 : add32 q1 q2 = q1 + q2 := add32_eq_of_lt hsum
  simp [submitB, BookSt.add_order, BookSt.findOrCreateLevel, BookSt.findLevel,
    BookSt.insertLevel, BookSt.insertWalk, BookSt.level_add_order,
    BookSt.getSlot, BookSt.getLevel, BookSt.updSlot, BookSt.updLevel,
    BookSt.setBook, setAssoc, lookupA, hq2, hA3]

/-- The duplicate-id scenario evaluated end to end. -/
theorem dupSubmit_eval (id p q1 q2 ts1 ts2 : Nat)
    (hq1 : 0 < q1) (hq2 : 0 < q2) (hsum : q1 + q2 < U32) :
    dupSt2 id ts1 ts2 p q1 q2 =
      ⟨[⟨id, ts1, p, q1, q1, Side.BUY, OrderType.LIMIT, some 1, none, some 0⟩,
        ⟨id, ts2, p, q2, q2, Side.BUY, OrderType.LIMIT, none, some 0, some 0⟩],
       ⟨[⟨p, q1 + q2, 2, some 0, some 1, none, none, none⟩], some 0, none,
        some 0, none, [(id, 1)], 2, 0⟩⟩ := by
  unfold dupSt2
  rw [dupSubmit_step1 id p q1 ts1 hq1 (by omega),
    dupSubmit_step2 id p q1 q2 ts1 ts2 hq2 hsum]

section

attribute [local irreducible] sub32 add32

/-- Cancelling the duplicate id removes only the *new* order (slot 1): the
old order stays in the FIFO and in the volume; the level survives.  Stated
at the concrete id 7 with price, quantities and timestamps symbolic;
`sub32`/`add32` are kept opaque here so the equality is purely the
unfolding of `cancel_order`. -/
theorem dupSubmit_cancel_eval (p q1 q2 ts1 ts2 : Nat) :
    BookSt.cancel_order
      ⟨[⟨7, ts1, p, q1, q1, Side.BUY, OrderType.LIMIT, some 1, none, some 0⟩,
        ⟨7, ts2, p, q2, q2, Side.BUY, OrderType.LIMIT, none, some 0, some 0⟩],
       ⟨[⟨p, q1 + q2, 2, some 0, some 1, none, none, none⟩], some 0, none,
        some 0, none, [(7, 1)], 2, 0⟩⟩ 7 =
      ⟨[⟨7, ts1, p, q1, q1, Side.BUY, OrderType.LIMIT, none, none, some 0⟩,
        ⟨7, ts2, p, q2, q2, Side.BUY, OrderType.LIMIT, none, none, none⟩],
       ⟨[⟨p, sub32 (q1 + q2) q2, 1, some 0, some 0, none, none, none⟩],
        some 0, none, some 0, none, [], 1, 0⟩⟩ := rfl

end

/-- Modifying the duplicate id adjusts only the *new* order (slot 1). -/
theorem dupSubmit_modify_eval (id p q1 q2 q3 ts1 ts2 : Nat)
    (hsum : q1 + q2 < U32) :
    BookSt.modify_order
      ⟨[⟨id, ts1, p, q1, q1, Side.BUY, OrderType.LIMIT, some 1, none, some 0⟩,
        ⟨id, ts2, p, q2, q2, Side.BUY, OrderType.LIMIT, none, some 0, some 0⟩],
       ⟨[⟨p, q1 + q2, 2, some 0, some 1, none, none, none⟩], some 0, none,
        some 0, none, [(id, 1)], 2, 0⟩⟩ id q3 =
      ⟨[⟨id, ts1, p, q1, q1, Side.BUY, OrderType.LIMIT, some 1, none, some 0⟩,
        ⟨id, ts2, p, q2, q3, Side.BUY, OrderType.LIMIT, none, some 0, some 0⟩],
       ⟨[⟨p, add32 q1 q3, 2, some 0, some 1, none, none, none⟩], some 0, none,
        some 0, none, [(id, 1)], 2, 0⟩⟩ := by
  have hS1 : sub32 (q1 + q2) q2 = q1 := by
    rw [sub32_eq_of_le (by omega) hsum]
    omega
  simp [BookSt.modify_order, BookSt.getSlot, BookSt.getLevel, BookSt.updSlot,
    BookSt.updLevel, lookupA, hS1]

/-- **C10** (confirmed).  Submitting a second non-crossing LIMIT with an
`order_id` (here 7) that already identifies a resting order in the same
book overwrites the id map entry to point at the new order, while the old
order remains linked in its price level FIFO and counted in
`total_volume`; a subsequent `cancel_order` with that id removes only the
new order (the old one stays resting but is unreachable by id), and a
subsequent `modify_order` adjusts only the new order.  Price, both
quantities and both timestamps are arbitrary. -/
theorem submit_duplicate_id_overwrites (p q1 q2 q3 ts1 ts2 : Nat)
    (hq1 : 0 < q1) (hq2 : 0 < q2) (hsum : q1 + q2 < U32) :
    lookupA (dupSt2 7 ts1 ts2 p q1 q2).book.orders 7 = some 1 ∧
    fifoOrders (dupSt2 7 ts1 ts2 p q1 q2) 0 = [0, 1] ∧
    ((dupSt2 7 ts1 ts2 p q1 q2).getLevel 0).map PriceLevel.total_volume =
      some (q1 + q2) ∧
    ((dupSt2 7 ts1 ts2 p q1 q2).getSlot 0).map Order.remaining_quantity =
      some q1 ∧
    (lookupA (BookSt.cancel_order (dupSt2 7 ts1 ts2 p q1 q2) 7).book.orders
        7 = none ∧
      fifoOrders (BookSt.cancel_order (dupSt2 7 ts1 ts2 p q1 q2) 7) 0 =
        [0] ∧
      ((BookSt.cancel_order (dupSt2 7 ts1 ts2 p q1 q2) 7).getLevel 0).map
          PriceLevel.total_volume = some q1 ∧
      bidIndices (BookSt.cancel_order (dupSt2 7 ts1 ts2 p q1 q2) 7) =
        [0]) ∧
    ((BookSt.modify_order (dupSt2 7 ts1 ts2 p q1 q2) 7 q3).getSlot 1).map
        Order.remaining_quantity = some q3 ∧
    ((BookSt.modify_order (dupSt2 7 ts1 ts2 p q1 q2) 7 q3).getSlot 0).map
        Order.remaining_quantity = some q1 := by
  have hS1 : sub32 (q1 + q2) q2 = q1 := by
    rw [sub32_eq_of_le (by omega) hsum]
    omega
  rw [dupSubmit_eval 7 p q1 q2 ts1 ts2 hq1 hq2 hsum,
    dupSubmit_cancel_eval p q1 q2 ts1 ts2,
    dupSubmit_modify_eval 7 p q1 q2 q3 ts1 ts2 hsum]
  refine ⟨?_, ?_, ?_, ?_, ⟨?_, ?_, ?_, ?_⟩, ?_, ?_⟩
  · simp [lookupA]
  · simp [fifoOrders, fifoAux, BookSt.getLevel, BookSt.getSlot]
  · simp [BookSt.getLevel]
  · simp [BookSt.getSlot]
  · simp [lookupA]
  · simp [fifoOrders, fifoAux, BookSt.getLevel, BookSt.getSlot]
  · simp [BookSt.getLevel, hS1]
  · simp [bidIndices, treeIndicesAux, BookSt.getLevel]
  · simp [BookSt.getSlot]
  · simp [BookSt.getSlot]

/-- Witness for `submit_duplicate_id_overwrites` at price 100, quantities
3, 5 and modify quantity 9. -/
theorem submit_duplicate_id_overwrites_witness :
    lookupA (dupSt2 7 1 2 100 3 5).book.orders 7 = some 1 ∧
    fifoOrders (dupSt2 7 1 2 100 3 5) 0 = [0, 1] ∧
    ((dupSt2 7 1 2 100 3 5).getLevel 0).map PriceLevel.total_volume =
      some (3 + 5) ∧
    ((dupSt2 7 1 2 100 3 5).getSlot 0).map Order.remaining_quantity =
      some 3 ∧
    (lookupA (BookSt.cancel_order (dupSt2 7 1 2 100 3 5) 7).book.orders 7 =
        none ∧
      fifoOrders (BookSt.cancel_order (dupSt2 7 1 2 100 3 5) 7) 0 = [0] ∧
      ((BookSt.cancel_order (dupSt2 7 1 2 100 3 5) 7).getLevel 0).map
          PriceLevel.total_volume = some 3 ∧
      bidIndices (BookSt.cancel_order (dupSt2 7 1 2 100 3 5) 7) = [0]) ∧
    ((BookSt.modify_order (dupSt2 7 1 2 100 3 5) 7 9).getSlot 1).map
        Order.remaining_quantity = some 9 ∧
    ((BookSt.modify_order (dupSt2 7 1 2 100 3 5) 7 9).getSlot 0).map
        Order.remaining_quantity = some 3 :=
  submit_duplicate_id_overwrites 100 3 5 9 1 2 (by decide) (by decide)
    (by decide)

end LOB
